import Mathlib

/-!
Shallow embedding of the keyword-based content recommender backend
(src/backend/database.py, src/backend/main.py,
src/backend/langchain_integration.py).

Modelling conventions:
* Python floats are modelled as rationals.
* Python str is the Lean String, except in the tag-codec model where the
  comma join/split logic is modelled character by character on List Char.
* Remote calls (Gemini embedding call, ChromaDB query, LLM chain run) are
  black boxes; a call outcome is an argument of type Except PyErr A, where
  Except.error stands for the call raising an exception.
* Python dict insertion order is modelled with association lists, and the
  Python set of seen ids with a list queried by membership.
* Python list.sort(key=..., reverse=True) and sorted(..., reverse=True)
  are stable descending sorts (ties keep original order); they are
  modelled by the stable descending insertion sort sortDescBy.
-/

namespace ContentRecommender

/-- Opaque stand-in for a Python exception value. -/
abbrev PyErr := String

/-! ## Rate limiter (database.py lines 56-74, langchain_integration.py lines 52-70) -/

/-- Mutable limiter state: the pair ContentDatabase.last_embedding_call /
ContentDatabase.embedding_call_count (database.py lines 20-21); the
LangChainProcessor limiter keeps the same pair on its own fields. -/
structure RLState where
  last_call : ℚ
  call_count : ℕ
deriving DecidableEq, Repr

/-- Result of one acquire: whether the sleep branch was taken, the slept
duration, and the updated limiter state. -/
structure RLOutcome where
  slept : Bool
  sleep_time : ℚ
  state : RLState
deriving DecidableEq, Repr

/-- One call of ContentDatabase._rate_limit_embedding_calls
(database.py lines 56-74); LangChainProcessor._rate_limit_llm_calls
(langchain_integration.py lines 52-70) is the same code on its own
counters. The argument now is time.time() at entry; time.sleep is
modelled as advancing the clock by the slept duration, so the
post-sleep time.time() is now + sleep_time. -/
def rateLimitAcquire (limit : ℤ) (s : RLState) (now : ℚ) : RLOutcome :=
  let s1 := if now - s.last_call > 60 then RLState.mk now 0 else s
  if (s1.call_count : ℤ) ≥ limit then
    let sleep_time := 60 - (now - s1.last_call)
    if sleep_time > 0 then
      { slept := true, sleep_time := sleep_time, state := ⟨now + sleep_time, 0 + 1⟩ }
    else
      { slept := false, sleep_time := 0, state := ⟨s1.last_call, s1.call_count + 1⟩ }
  else
    { slept := false, sleep_time := 0, state := ⟨s1.last_call, s1.call_count + 1⟩ }

/-! ## Embedding generation (database.py lines 76-109) -/

/-- Fallback vector [0.1] * settings.embedding_dimension
(database.py lines 81 and 109). -/
def dummyEmbedding (dim : ℕ) : List ℚ := List.replicate dim (1/10)

/-- ContentDatabase.generate_embedding (database.py lines 76-109).
hasKey is the truth of settings.google_api_key; call is the outcome of
genai.embed_content (the rate-limiter acquire that precedes it is state
we do not need here). An exception anywhere in the try block lands in
the Except.error branch. -/
def generate_embedding (dim : ℕ) (hasKey : Bool) (call : Except PyErr (List ℚ)) : List ℚ :=
  if !hasKey then dummyEmbedding dim
  else
    match call with
    | .error _ => dummyEmbedding dim
    | .ok embedding =>
      if embedding.length ≠ dim then
        if embedding.length < dim then
          embedding ++ List.replicate (dim - embedding.length) 0
        else
          embedding.take dim
      else embedding

/-! ## Query expansion (langchain_integration.py lines 132-150) -/

/-- LangChainProcessor.expand_query (langchain_integration.py lines
132-150). chainConfigured is the truth of self.query_expansion_chain;
call is the outcome of self.query_expansion_chain.run (already parsed
into a list of strings). The source computes list(set([query] +
expanded)); a Python set has no specified iteration order, so the
result is modelled by one representative order, List.dedup of the same
elements; the properties proved about it (membership and absence of
duplicates) hold in any order. -/
def expand_query (chainConfigured : Bool) (call : Except PyErr (List String))
    (query : String) : List String :=
  if !chainConfigured then [query]
  else
    match call with
    | .error _ => [query]
    | .ok expanded_queries => (query :: expanded_queries).dedup

/-! ## Stable descending sort, modelling list.sort(key=..., reverse=True) -/

/-- Insert a in front of the first element whose key is not greater than
the key of a. Used by sortDescBy. -/
def insertDescBy {α β : Type} [LinearOrder β] (key : α → β) (a : α) : List α → List α
  | [] => [a]
  | b :: l => if key a < key b then b :: insertDescBy key a l else a :: b :: l

/-- Stable descending insertion sort: the extensional behaviour of
Python list.sort(key=..., reverse=True) and sorted(..., reverse=True),
which sort descending by key and keep the original order of elements
with equal keys. -/
def sortDescBy {α β : Type} [LinearOrder β] (key : α → β) : List α → List α
  | [] => []
  | a :: l => insertDescBy key a (sortDescBy key l)

/-! ## Search results (database.py lines 162-220) -/

/-- One raw hit of self.collection.query, read off at index i of the
parallel arrays in database.py lines 190-204: id, document, the
metadata fields, and the cosine distance. -/
structure Hit where
  id : String
  document : String
  title : String
  category : String
  tags : String
  difficulty : String
  read_time : ℕ
  author : String
  created_at : String
  distance : ℚ
deriving DecidableEq, Repr

/-- A result dict as built in database.py lines 194-205, with the two
optional fields added later by enhance_search_results. -/
structure SearchResult where
  id : String
  title : String
  content : String
  category : String
  tags : List String
  difficulty : String
  read_time : ℕ
  author : String
  created_at : String
  similarity_score : ℚ
  summary : Option String := none
  relevance_explanation : Option String := none
deriving DecidableEq, Repr

/-- Round-half-to-even on rationals, the tie rule of the Python builtin
round. No proved statement depends on the tie case. -/
def roundHalfEven (q : ℚ) : ℤ :=
  let f := ⌊q⌋
  if q - f < 1/2 then f
  else if q - f > 1/2 then f + 1
  else if f % 2 = 0 then f else f + 1

/-- Python round(x, 4) (database.py line 204 and main.py line 96). -/
def round4 (q : ℚ) : ℚ := (roundHalfEven (q * 10000) : ℚ) / 10000

/-- The dict built for one hit in database.py lines 194-205:
similarity_score = 1 - distance, rounded to 4 places for display; the
stored tags string is split on commas. -/
def toSearchResult (h : Hit) : SearchResult :=
  { id := h.id
    title := h.title
    content := h.document
    category := h.category
    tags := h.tags.splitOn ","
    difficulty := h.difficulty
    read_time := h.read_time
    author := h.author
    created_at := h.created_at
    similarity_score := round4 (1 - h.distance) }

/-- The result-processing loop of database.py lines 188-205: keep a hit
iff its unrounded similarity 1 - distance is at least min_similarity,
appending in hit order. -/
def processHits (hits : List Hit) (min_similarity : ℚ) : List SearchResult :=
  hits.foldl
    (fun acc h =>
      if min_similarity ≤ 1 - h.distance then acc ++ [toSearchResult h] else acc)
    []

/-- One entry of ContentDatabase.search_stats as appended in database.py
lines 209-214. -/
structure StatRecord where
  query : String
  results_count : ℕ
  search_time : ℚ
  timestamp : String
deriving DecidableEq, Repr

/-- ContentDatabase.search_content (database.py lines 162-220). env is
the joint outcome of generate_embedding plus collection.query for this
call (the raw hit list, already truncated to max_results and filtered
by the where clause inside ChromaDB); Except.error stands for an
exception raised inside the try block, in which case the except branch
returns an empty list and nothing is appended to search_stats. elapsed
and stamp are the measured wall-clock duration and timestamp of the
appended record. -/
def db_search_content (env : Except PyErr (List Hit)) (query : String)
    (min_similarity : ℚ) (elapsed : ℚ) (stamp : String)
    (log : List StatRecord) : List SearchResult × List StatRecord :=
  match env with
  | .error _ => ([], log)
  | .ok hits =>
    let content_results := processHits hits min_similarity
    (content_results,
      log ++ [{ query := query, results_count := content_results.length,
                search_time := elapsed, timestamp := stamp }])

/-! ## Search endpoint (main.py lines 52-101) -/

/-- Word count via str.split() (whitespace split discarding empty
pieces); the model splits on the space character. -/
def wordCount (s : String) : ℕ := ((s.split (· = ' ')).filter (· ≠ "")).length

/-- The fixed relevance thresholds of langchain_integration.py lines
200-208. -/
def relevanceLabel (score : ℚ) : String :=
  if score > 8/10 then "Highly relevant - strong semantic match"
  else if score > 6/10 then "Moderately relevant - good conceptual match"
  else if score > 4/10 then "Somewhat relevant - partial match"
  else "Limited relevance - weak match"

/-- The per-result body of enhance_search_results
(langchain_integration.py lines 190-210). summarize stands for
summarize_content, which catches its own failures and falls back to
truncation, so it is a total function here. -/
def enhanceOne (summarize : String → String) (r : SearchResult) : SearchResult :=
  { r with
    summary := some (if wordCount r.content > 100 then summarize r.content else r.content)
    relevance_explanation := some (relevanceLabel r.similarity_score) }

/-- LangChainProcessor.enhance_search_results (langchain_integration.py
lines 183-212). The early return on an empty list equals mapping over
it; the query argument of the source is unused in its body. -/
def enhance_search_results (summarize : String → String)
    (results : List SearchResult) : List SearchResult :=
  results.map (enhanceOne summarize)

/-- The body of the dedup loop in main.py lines 76-79: state is the
pair (all_results, seen_ids). -/
def dedupStep (st : List SearchResult × List String) (r : SearchResult) :
    List SearchResult × List String :=
  if r.id ∈ st.2 then st else (st.1 ++ [r], st.2 ++ [r.id])

/-- The merge of main.py lines 62-79 applied to the per-variant result
lists in variant order: first-seen id wins, later duplicates are
dropped. -/
def mergeVariantResults (variantLists : List (List SearchResult)) : List SearchResult :=
  (variantLists.foldl (fun st results => results.foldl dedupStep st) ([], [])).1

/-- Environment of one /search request: the black-box collaborators of
main.py search_content. store gives the per-variant outcome of
db.search_content inner calls (embedding plus ChromaDB query); elapsed
and stamp give the per-variant duration and timestamp of the stats
record; summarize is the summarization backend; total_time is the
whole-pipeline wall-clock duration of main.py line 88. -/
structure PipelineEnv where
  store : String → Except PyErr (List Hit)
  elapsed : String → ℚ
  stamp : String → String
  summarize : String → String
  total_time : ℚ

/-- One iteration of the loop over expanded_queries in main.py lines
66-79: run the inner db search (which appends its own stats record),
then fold its results into (all_results, seen_ids). -/
def variantStep (env : PipelineEnv) (min_similarity : ℚ)
    (st : List SearchResult × List String × List StatRecord) (q : String) :
    List SearchResult × List String × List StatRecord :=
  let dbr :=
    db_search_content (env.store q) q min_similarity (env.elapsed q) (env.stamp q) st.2.2
  let merged := dbr.1.foldl dedupStep (st.1, st.2.1)
  (merged.1, merged.2, dbr.2)

/-- Response of the /search endpoint (models.py SearchResponse). -/
structure SearchResponseM where
  query : String
  results : List SearchResult
  total_results : ℕ
  search_time : ℚ
deriving DecidableEq, Repr

/-- The /search endpoint body, main.py lines 52-97, after step 1:
expanded is the list returned by expand_query; the function loops the
inner search over the variants, merges with first-seen-wins dedup,
sorts by similarity_score descending (stable), truncates to
max_results, enhances, and returns the response together with the
updated db.search_stats log. -/
def endpoint_search (env : PipelineEnv) (expanded : List String)
    (request_query : String) (max_results : ℕ) (min_similarity : ℚ)
    (log : List StatRecord) : SearchResponseM × List StatRecord :=
  let st := expanded.foldl (variantStep env min_similarity) ([], [], log)
  let final_results := (sortDescBy (fun r => r.similarity_score) st.1).take max_results
  let enhanced := enhance_search_results env.summarize final_results
  ({ query := request_query
     results := enhanced
     total_results := enhanced.length
     search_time := round4 env.total_time }, st.2.2)

/-- Recursive form of the first-seen-wins dedup of main.py lines 76-79,
used to reason about the foldl over dedupStep: keep a result iff its id
was not seen before, in traversal order. -/
def dedupByIdAux (seen : List String) : List SearchResult → List SearchResult
  | [] => []
  | r :: rs =>
    if r.id ∈ seen then dedupByIdAux seen rs
    else r :: dedupByIdAux (seen ++ [r.id]) rs

/-- The stats record that one iteration of the variant loop appends for
variant q: none when the inner try block raised, otherwise the record
of database.py lines 209-214. -/
def variantRecord (env : PipelineEnv) (min_similarity : ℚ) (q : String) :
    Option StatRecord :=
  match env.store q with
  | .error _ => none
  | .ok hits =>
    some { query := q, results_count := (processHits hits min_similarity).length,
           search_time := env.elapsed q, timestamp := env.stamp q }

/-! ## Stats (database.py lines 273-317) -/

/-- Python l[-100:] for nonempty l, and [] for empty l, both equal the
last min(100, len(l)) elements (database.py line 290). -/
def takeLast {α : Type} (n : ℕ) (l : List α) : List α := l.drop (l.length - n)

/-- One step of the counting loop of database.py lines 291-294:
query_counts[query] = query_counts.get(query, 0) + 1 on a dict whose
iteration order is insertion order, modelled as an association list in
first-encountered key order. -/
def bumpCount (counts : List (String × ℕ)) (q : String) : List (String × ℕ) :=
  if counts.any (fun p => p.1 == q) then
    counts.map (fun p => if p.1 == q then (p.1, p.2 + 1) else p)
  else counts ++ [(q, 1)]

/-- The whole counting pass of database.py lines 291-294. -/
def buildCounts (qs : List String) : List (String × ℕ) := qs.foldl bumpCount []

/-- The popular_queries computation of database.py lines 289-299: last
100 records, count exact query matches, sorted(..., key=count,
reverse=True) which is stable descending, top 10. -/
def popular_queries (log : List StatRecord) : List (String × ℕ) :=
  (sortDescBy (fun p => p.2)
    (buildCounts ((takeLast 100 log).map (fun r => r.query)))).take 10

/-! ## Tag codec and content storage (database.py lines 222-271) -/

/-- Python ",".join on strings as character lists (database.py
line 256). -/
def joinTags : List (List Char) → List Char
  | [] => []
  | [t] => t
  | t :: ts => t ++ ',' :: joinTags ts

/-- Python str.split(",") on strings as character lists (database.py
line 233): split at every comma, never collapsing, and the empty string
splits to [""]. -/
def splitTags : List Char → List (List Char)
  | [] => [[]]
  | c :: rest =>
    if c = ',' then [] :: splitTags rest
    else
      match splitTags rest with
      | [] => [[c]]
      | h :: t => (c :: h) :: t

/-- Argument of ContentDatabase.add_content (models.py
AddContentRequest), with tag strings at character granularity. -/
structure AddContentData where
  title : String
  content : String
  category : String
  tags : List (List Char)
  difficulty : String
  read_time : ℕ
  author : String
deriving DecidableEq, Repr

/-- One (document, metadata) record of the ChromaDB collection as
written by add_content (database.py lines 251-264); tags is the
comma-joined metadata string. -/
structure StoredRecord where
  document : String
  title : String
  category : String
  tags : List Char
  difficulty : String
  read_time : ℕ
  author : String
  created_at : String
deriving DecidableEq, Repr

/-- The collection keyed by id. -/
abbrev Collection := List (String × StoredRecord)

/-- ContentDatabase.add_content (database.py lines 244-271): join the
tags with commas into the metadata and append the record under the
fresh uuid content_id; today is datetime.now().strftime of line 260. -/
def add_content (col : Collection) (d : AddContentData) (content_id : String)
    (today : String) : Collection :=
  col ++ [(content_id,
    { document := d.content
      title := d.title
      category := d.category
      tags := joinTags d.tags
      difficulty := d.difficulty
      read_time := d.read_time
      author := d.author
      created_at := today })]

/-- The item dict rebuilt by get_content_by_id (database.py lines
228-238), with tags re-split on commas. -/
structure ContentItem where
  id : String
  title : String
  content : String
  category : String
  tags : List (List Char)
  difficulty : String
  read_time : ℕ
  author : String
  created_at : String
deriving DecidableEq, Repr

/-- ContentDatabase.get_content_by_id (database.py lines 222-242):
fetch the record for the id and rebuild the item, splitting the stored
tags string on commas; unknown id gives None. -/
def get_content_by_id (col : Collection) (content_id : String) : Option ContentItem :=
  match col.find? (fun p => p.1 == content_id) with
  | none => none
  | some (i, r) =>
    some { id := i
           title := r.title
           content := r.document
           category := r.category
           tags := splitTags r.tags
           difficulty := r.difficulty
           read_time := r.read_time
           author := r.author
           created_at := r.created_at }

/-! ## Similar content (database.py lines 319-338) -/

/-- ContentDatabase.get_similar_content (database.py lines 319-338).
lookup is the outcome of get_content_by_id (which absorbs its own
errors into None) and search stands for self.search_content applied to
a query string and a max_results bound (it absorbs its own errors into
an empty list); the source searches with max_results + 1, drops the
original id and truncates to max_results. -/
def get_similar_content (lookup : Option ContentItem)
    (search : String → ℕ → List SearchResult) (content_id : String)
    (max_results : ℕ) : List SearchResult :=
  match lookup with
  | none => []
  | some original =>
    let query_text := original.title ++ " " ++ original.content
    ((search query_text (max_results + 1)).filter (fun r => r.id != content_id)).take
      max_results

/-! ## Claims about the rate limiter, embedding, expansion and similar content -/

/-- Claim C3, as stated, is false: a limiter configured with a
calls-per-minute limit of 0 takes the sleep branch on its very first
acquire (fields initialized to 0 as in ContentDatabase.__init__, first
call at time 100): the counter check count >= limit always fires for a
nonpositive limit, the window is reset because more than 60 seconds
passed, and the computed sleep time is the full 60 seconds. -/
theorem claim3_counterexample :
    (rateLimitAcquire 0 { last_call := 0, call_count := 0 } 100).slept = true := by
  norm_num [rateLimitAcquire]

/-- Claim C3, amended: a limiter with limit <= 0 does block; the sleep
branch is taken on every Acquire call except in the boundary case where
exactly 60 seconds have elapsed since the recorded window start (then
the computed sleep time is 0 and the sleep is skipped). -/
theorem claim3_nonpositive_limit_blocks (limit : ℤ) (s : RLState) (now : ℚ)
    (h : limit ≤ 0) :
    ((rateLimitAcquire limit s now).slept = true ↔ now - s.last_call ≠ 60) := by
  by_cases h1 : now - s.last_call > 60
  · have h60 : now - s.last_call ≠ 60 := by intro he; rw [he] at h1; exact lt_irrefl _ h1
    simp only [rateLimitAcquire, if_pos h1]
    rw [if_pos (show ((RLState.mk now 0).call_count : ℤ) ≥ limit from
      le_trans h (Int.ofNat_nonneg _))]
    rw [if_pos (show (60 : ℚ) - (now - (RLState.mk now 0).last_call) > 0 by
      norm_num)]
    simpa using h60
  · simp only [rateLimitAcquire, if_neg h1]
    rw [if_pos (show ((s.call_count : ℤ) ≥ limit) from le_trans h (Int.ofNat_nonneg _))]
    by_cases h2 : (60 : ℚ) - (now - s.last_call) > 0
    · rw [if_pos h2]
      simp only [true_iff]
      intro he
      rw [he] at h2
      norm_num at h2
    · rw [if_neg h2]
      simp only [Bool.false_eq_true, false_iff, ne_eq, not_not]
      push_neg at h1 h2
      linarith

/-- Witness for claim3_nonpositive_limit_blocks at limit 0, the initial
limiter state and time 100. -/
theorem claim3_nonpositive_limit_blocks_witness :
    (0 : ℤ) ≤ 0 ∧
    ((rateLimitAcquire 0 { last_call := 0, call_count := 0 } 100).slept = true ↔
      (100 : ℚ) - 0 ≠ 60) :=
  ⟨le_refl 0, claim3_nonpositive_limit_blocks 0 ⟨0, 0⟩ 100 (le_refl 0)⟩

/-- Claim C5: for every input and every provider outcome,
generate_embedding returns a vector of exactly the configured
dimension; a provider vector that arrived with the key configured is
zero-padded when shorter and truncated when longer. -/
theorem claim5_embedding_dimension (dim : ℕ) (hasKey : Bool)
    (call : Except PyErr (List ℚ)) :
    (generate_embedding dim hasKey call).length = dim ∧
    (∀ v, call = .ok v → hasKey = true →
      generate_embedding dim hasKey call =
        if v.length < dim then v ++ List.replicate (dim - v.length) 0
        else v.take dim) := by
  constructor
  · cases hasKey with
    | false => simp [generate_embedding, dummyEmbedding]
    | true =>
      cases call with
      | error e => simp [generate_embedding, dummyEmbedding]
      | ok v =>
        simp only [generate_embedding, Bool.not_true, Bool.false_eq_true, if_false]
        split_ifs with h1 h2
        · simp only [List.length_append, List.length_replicate]
          omega
        · simp only [List.length_take]
          omega
        · omega
  · intro v hv hk
    subst hv
    subst hk
    simp only [generate_embedding, Bool.not_true, Bool.false_eq_true, if_false]
    split_ifs with h1 h2 h3
    · rfl
    · rfl
    · exact absurd h3 (by omega)
    · have hd : v.length = dim := by omega
      rw [← hd, List.take_length]

/-- Witness for claim5_embedding_dimension: a two-component provider
vector is zero-padded to the configured dimension 3. -/
theorem claim5_embedding_dimension_witness :
    (generate_embedding 3 true (.ok [1, 2])).length = 3 ∧
    generate_embedding 3 true (.ok [1, 2]) =
      (if ([1, 2] : List ℚ).length < 3 then
        [1, 2] ++ List.replicate (3 - ([1, 2] : List ℚ).length) 0
      else ([1, 2] : List ℚ).take 3) :=
  ⟨(claim5_embedding_dimension 3 true (.ok [1, 2])).1,
   (claim5_embedding_dimension 3 true (.ok [1, 2])).2 [1, 2] rfl rfl⟩

/-- Claim C7: the expansion list always contains the original query and
has no duplicates; when the chain is unconfigured or the chain call
fails, the result is exactly the singleton of the original query. -/
theorem claim7_expand_query (c : Bool) (call : Except PyErr (List String))
    (q : String) :
    q ∈ expand_query c call q ∧ (expand_query c call q).Nodup ∧
    (c = false → expand_query c call q = [q]) ∧
    (∀ e, call = .error e → expand_query c call q = [q]) := by
  refine ⟨?_, ?_, ?_, ?_⟩ <;>
    cases c <;> cases call <;>
    simp [expand_query, List.nodup_dedup, List.mem_dedup]

/-- Witness for claim7_expand_query on a configured chain with a
successful call, an unconfigured chain, and a failing call. -/
theorem claim7_expand_query_witness :
    "q" ∈ expand_query true (.ok ["alternative phrasing", "q"]) "q" ∧
    expand_query false (.ok ["x"]) "q" = ["q"] ∧
    expand_query true (.error "boom") "q" = ["q"] :=
  ⟨(claim7_expand_query true (.ok ["alternative phrasing", "q"]) "q").1,
   (claim7_expand_query false (.ok ["x"]) "q").2.2.1 rfl,
   (claim7_expand_query true (.error "boom") "q").2.2.2 "boom" rfl⟩

/-- Claim C8: FindSimilar never surfaces the item whose id was asked
about, and returns at most max_results results. -/
theorem claim8_similar_excludes_self (lookup : Option ContentItem)
    (search : String → ℕ → List SearchResult) (cid : String) (n : ℕ) :
    (∀ r ∈ get_similar_content lookup search cid n, r.id ≠ cid) ∧
    (get_similar_content lookup search cid n).length ≤ n := by
  cases lookup with
  | none => simp [get_similar_content]
  | some orig =>
    constructor
    · intro r hr
      simp only [get_similar_content] at hr
      have hf := List.mem_of_mem_take hr
      have := (List.mem_filter.mp hf).2
      simpa [bne_iff_ne] using this
    · simp only [get_similar_content, List.length_take]
      exact min_le_left _ _

/-- Witness for claim8_similar_excludes_self: a two-result inner search
containing the original item itself; the surviving result has a
different id and the output length is within the bound. -/
theorem claim8_similar_excludes_self_witness :
    (SearchResult.mk "a" "" "" "" [] "" 0 "" "" 0 none none).id ≠ "orig" ∧
    (get_similar_content
      (some (ContentItem.mk "orig" "T" "B" "C" [] "D" 1 "A" "2024"))
      (fun _ _ => [SearchResult.mk "a" "" "" "" [] "" 0 "" "" 0 none none,
                   SearchResult.mk "orig" "" "" "" [] "" 0 "" "" 0 none none])
      "orig" 1).length ≤ 1 :=
  ⟨(claim8_similar_excludes_self
      (some (ContentItem.mk "orig" "T" "B" "C" [] "D" 1 "A" "2024"))
      (fun _ _ => [SearchResult.mk "a" "" "" "" [] "" 0 "" "" 0 none none,
                   SearchResult.mk "orig" "" "" "" [] "" 0 "" "" 0 none none])
      "orig" 1).1
      (SearchResult.mk "a" "" "" "" [] "" 0 "" "" 0 none none) (by decide),
   (claim8_similar_excludes_self
      (some (ContentItem.mk "orig" "T" "B" "C" [] "D" 1 "A" "2024"))
      (fun _ _ => [SearchResult.mk "a" "" "" "" [] "" 0 "" "" 0 none none,
                   SearchResult.mk "orig" "" "" "" [] "" 0 "" "" 0 none none])
      "orig" 1).2⟩

/-! ## Tag codec lemmas -/

/-- Splitting a comma-free string yields the single piece. -/
theorem splitTags_no_comma : ∀ t : List Char, ',' ∉ t → splitTags t = [t]
  | [], _ => rfl
  | c :: t, h => by
    have hc : ¬c = ',' := fun he => h (by simp [he])
    have ih := splitTags_no_comma t (fun hm => h (List.mem_cons_of_mem _ hm))
    simp [splitTags, hc, ih]

/-- Splitting past the first comma after a comma-free piece peels off
that piece. -/
theorem splitTags_comma_append : ∀ t s : List Char, ',' ∉ t →
    splitTags (t ++ ',' :: s) = t :: splitTags s
  | [], s, _ => by simp [splitTags]
  | c :: t, s, h => by
    have hc : ¬c = ',' := fun he => h (by simp [he])
    have ih := splitTags_comma_append t s (fun hm => h (List.mem_cons_of_mem _ hm))
    simp [splitTags, hc, ih]

/-- Round trip of the tag codec for a nonempty list of comma-free
tags. -/
theorem splitTags_joinTags : ∀ ts : List (List Char), ts ≠ [] →
    (∀ t ∈ ts, ',' ∉ t) → splitTags (joinTags ts) = ts
  | [], h, _ => absurd rfl h
  | [t], _, hc => by
    simpa [joinTags] using splitTags_no_comma t (hc t (by simp))
  | t :: t2 :: ts, _, hc => by
    have ih := splitTags_joinTags (t2 :: ts) (by simp)
      (fun x hx => hc x (List.mem_cons_of_mem _ hx))
    rw [show joinTags (t :: t2 :: ts) = t ++ ',' :: joinTags (t2 :: ts) from rfl,
      splitTags_comma_append t _ (hc t (by simp)), ih]

/-- Claim C10: an item added with a nonempty list of nonempty,
comma-free tags reads back with an equal tags list, but an item added
with an empty tags list reads back with the one-element list containing
the empty string, because tags are persisted comma-joined and re-split
on read. -/
theorem claim10_tags_roundtrip (col : Collection) (d : AddContentData)
    (cid today : String)
    (hfresh : col.find? (fun p => p.1 == cid) = none) :
    (d.tags ≠ [] → (∀ t ∈ d.tags, t ≠ [] ∧ ',' ∉ t) →
      ∃ item, get_content_by_id (add_content col d cid today) cid = some item ∧
        item.tags = d.tags) ∧
    (d.tags = [] →
      ∃ item, get_content_by_id (add_content col d cid today) cid = some item ∧
        item.tags = [[]]) := by
  have hfind : (add_content col d cid today).find? (fun p => p.1 == cid) =
      some (cid,
        { document := d.content, title := d.title, category := d.category,
          tags := joinTags d.tags, difficulty := d.difficulty,
          read_time := d.read_time, author := d.author, created_at := today }) := by
    unfold add_content
    rw [List.find?_append, hfresh]
    simp
  constructor
  · intro hne hall
    refine ⟨{ id := cid, title := d.title, content := d.content,
              category := d.category, tags := splitTags (joinTags d.tags),
              difficulty := d.difficulty, read_time := d.read_time,
              author := d.author, created_at := today }, ?_, ?_⟩
    · simp only [get_content_by_id, hfind]
    · exact splitTags_joinTags d.tags hne (fun t ht => (hall t ht).2)
  · intro h0
    refine ⟨{ id := cid, title := d.title, content := d.content,
              category := d.category, tags := splitTags (joinTags d.tags),
              difficulty := d.difficulty, read_time := d.read_time,
              author := d.author, created_at := today }, ?_, ?_⟩
    · simp only [get_content_by_id, hfind]
    · rw [h0]
      rfl

/-- Witness for claim10_tags_roundtrip: adding into the empty
collection with tags go and ml round-trips, and with the empty tag list
reads back as the singleton of the empty string. -/
theorem claim10_tags_roundtrip_witness :
    (∃ item, get_content_by_id
        (add_content [] (AddContentData.mk "T" "B" "C" [['g', 'o'], ['m', 'l']] "D" 1 "A")
          "id1" "2024-01-01") "id1" = some item ∧
      item.tags = [['g', 'o'], ['m', 'l']]) ∧
    (∃ item, get_content_by_id
        (add_content [] (AddContentData.mk "T" "B" "C" [] "D" 1 "A")
          "id1" "2024-01-01") "id1" = some item ∧
      item.tags = [[]]) :=
  ⟨(claim10_tags_roundtrip []
      (AddContentData.mk "T" "B" "C" [['g', 'o'], ['m', 'l']] "D" 1 "A")
      "id1" "2024-01-01" rfl).1 (by decide) (by decide),
   (claim10_tags_roundtrip []
      (AddContentData.mk "T" "B" "C" [] "D" 1 "A")
      "id1" "2024-01-01" rfl).2 rfl⟩

/-! ## Stable descending sort lemmas -/

/-- Membership through insertDescBy. -/
theorem mem_insertDescBy {α β : Type} [LinearOrder β] (key : α → β) (x a : α) :
    ∀ l, a ∈ insertDescBy key x l ↔ a = x ∨ a ∈ l
  | [] => by simp [insertDescBy]
  | b :: l => by
    by_cases h : key x < key b
    · simp only [insertDescBy, if_pos h, List.mem_cons, mem_insertDescBy key x a l]
      tauto
    · simp only [insertDescBy, if_neg h, List.mem_cons]

/-- Membership through sortDescBy. -/
theorem mem_sortDescBy {α β : Type} [LinearOrder β] (key : α → β) (a : α) :
    ∀ l, a ∈ sortDescBy key l ↔ a ∈ l
  | [] => by simp [sortDescBy]
  | b :: l => by
    simp only [sortDescBy, mem_insertDescBy, List.mem_cons, mem_sortDescBy key a l]

/-- Inserting into a descending list keeps it descending. -/
theorem pairwise_insertDescBy {α β : Type} [LinearOrder β] (key : α → β) (x : α) :
    ∀ l, List.Pairwise (fun a b => key b ≤ key a) l →
      List.Pairwise (fun a b => key b ≤ key a) (insertDescBy key x l)
  | [], _ => by simp [insertDescBy]
  | b :: l, h => by
    rcases List.pairwise_cons.mp h with ⟨hb, hl⟩
    by_cases hx : key x < key b
    · simp only [insertDescBy, if_pos hx]
      refine List.pairwise_cons.mpr ⟨?_, pairwise_insertDescBy key x l hl⟩
      intro a ha
      rcases (mem_insertDescBy key x a l).mp ha with rfl | ha2
      · exact le_of_lt hx
      · exact hb a ha2
    · simp only [insertDescBy, if_neg hx]
      refine List.pairwise_cons.mpr ⟨?_, h⟩
      intro a ha
      rcases List.mem_cons.mp ha with rfl | ha2
      · exact le_of_not_lt hx
      · exact le_trans (hb a ha2) (le_of_not_lt hx)

/-- The output of sortDescBy is descending in the key. -/
theorem pairwise_sortDescBy {α β : Type} [LinearOrder β] (key : α → β) :
    ∀ l, List.Pairwise (fun a b => key b ≤ key a) (sortDescBy key l)
  | [] => by simp [sortDescBy]
  | a :: l => pairwise_insertDescBy key a _ (pairwise_sortDescBy key l)

/-- Elements passed over by insertDescBy have strictly larger keys, so
restricting to any fixed key value puts the inserted element first. -/
theorem filter_key_insertDescBy {α β : Type} [LinearOrder β] (key : α → β)
    (c : β) (x : α) :
    ∀ l, (insertDescBy key x l).filter (fun z => decide (key z = c)) =
      if key x = c then x :: l.filter (fun z => decide (key z = c))
      else l.filter (fun z => decide (key z = c))
  | [] => by
    by_cases h : key x = c <;> simp [insertDescBy, h]
  | b :: l => by
    by_cases hxb : key x < key b
    · simp only [insertDescBy, if_pos hxb, List.filter_cons]
      rw [filter_key_insertDescBy key c x l]
      by_cases h1 : key x = c
      · have h2 : ¬key b = c := by
          intro hb
          rw [h1] at hxb
          rw [hb] at hxb
          exact lt_irrefl c hxb
        simp [h1, h2]
      · by_cases h2 : key b = c <;> simp [h1, h2]
    · simp only [insertDescBy, if_neg hxb, List.filter_cons]
      by_cases h1 : key x = c <;> by_cases h2 : key b = c <;>
        simp [h1, h2, List.filter_cons]

/-- Stability of sortDescBy: the elements with any fixed key value keep
their input order. -/
theorem filter_key_sortDescBy {α β : Type} [LinearOrder β] (key : α → β)
    (c : β) :
    ∀ l, (sortDescBy key l).filter (fun z => decide (key z = c)) =
      l.filter (fun z => decide (key z = c))
  | [] => rfl
  | a :: l => by
    rw [show sortDescBy key (a :: l) = insertDescBy key a (sortDescBy key l) from rfl,
      filter_key_insertDescBy, filter_key_sortDescBy key c l, List.filter_cons]
    by_cases h : key a = c <;> simp [h]

/-! ## Stats lemmas -/

/-- Appending in front of a block of exactly n records does not change
the last n records. -/
theorem takeLast_append_of_length {α : Type} (n : ℕ) (pre rest : List α)
    (h : rest.length = n) : takeLast n (pre ++ rest) = rest := by
  unfold takeLast
  rw [List.length_append, h, Nat.add_sub_cancel]
  exact List.drop_left pre rest

/-- A list of exactly n records is its own last-n slice. -/
theorem takeLast_of_length {α : Type} (n : ℕ) (l : List α)
    (h : l.length = n) : takeLast n l = l := by
  simp [takeLast, h]

/-- Claim C9: popular queries has at most 10 entries; it is sorted by
count descending; records older than the most recent 100 never
influence it; and ties keep the first-encountered order of the
count-building pass (the filter at every fixed count is unchanged by
the sort). -/
theorem claim9_popular_queries :
    (∀ log : List StatRecord, (popular_queries log).length ≤ 10) ∧
    (∀ log : List StatRecord,
      List.Pairwise (fun a b => b.2 ≤ a.2) (popular_queries log)) ∧
    (∀ pre rest : List StatRecord, rest.length = 100 →
      popular_queries (pre ++ rest) = popular_queries rest) ∧
    (∀ (log : List StatRecord) (c : ℕ),
      (sortDescBy (fun p => p.2)
          (buildCounts ((takeLast 100 log).map (fun r => r.query)))).filter
          (fun p => decide (p.2 = c)) =
        (buildCounts ((takeLast 100 log).map (fun r => r.query))).filter
          (fun p => decide (p.2 = c))) := by
  refine ⟨?_, ?_, ?_, ?_⟩
  · intro log
    simp only [popular_queries, List.length_take]
    exact min_le_left _ _
  · intro log
    exact (pairwise_sortDescBy (fun p : String × ℕ => p.2) _).sublist
      (List.take_sublist _ _)
  · intro pre rest h
    unfold popular_queries
    rw [takeLast_append_of_length 100 pre rest h, takeLast_of_length 100 rest h]
  · intro log c
    exact filter_key_sortDescBy (fun p : String × ℕ => p.2) c _

/-- Witness for claim9_popular_queries: a 100-record block preceded by
one extra old record yields the same popular queries as the block
alone. -/
theorem claim9_popular_queries_witness :
    popular_queries
        ([StatRecord.mk "old" 0 0 ""] ++ List.replicate 100 (StatRecord.mk "q" 1 0 "")) =
      popular_queries (List.replicate 100 (StatRecord.mk "q" 1 0 "")) :=
  claim9_popular_queries.2.2.1 [StatRecord.mk "old" 0 0 ""]
    (List.replicate 100 (StatRecord.mk "q" 1 0 "")) (by simp)

/-! ## Merge lemmas -/

/-- The dedup fold of main.py lines 76-79 appends exactly the elements
kept by the recursive first-seen-wins dedup, and records their ids. -/
theorem foldl_dedupStep : ∀ (rs acc : List SearchResult) (seen : List String),
    rs.foldl dedupStep (acc, seen) =
      (acc ++ dedupByIdAux seen rs,
        seen ++ (dedupByIdAux seen rs).map (fun r => r.id))
  | [], acc, seen => by simp [dedupByIdAux]
  | r :: rs, acc, seen => by
    simp only [List.foldl_cons, dedupStep]
    by_cases h : r.id ∈ seen
    · rw [if_pos h, foldl_dedupStep rs acc seen]
      simp [dedupByIdAux, h]
    · rw [if_neg h, foldl_dedupStep rs (acc ++ [r]) (seen ++ [r.id])]
      simp [dedupByIdAux, h, List.append_assoc]

/-- First-seen-wins dedup over a concatenation. -/
theorem dedupByIdAux_append : ∀ (l1 l2 : List SearchResult) (seen : List String),
    dedupByIdAux seen (l1 ++ l2) =
      dedupByIdAux seen l1 ++
        dedupByIdAux (seen ++ (dedupByIdAux seen l1).map (fun r => r.id)) l2
  | [], l2, seen => by simp [dedupByIdAux]
  | r :: l1, l2, seen => by
    by_cases h : r.id ∈ seen
    · simp only [List.cons_append, dedupByIdAux, if_pos h]
      exact dedupByIdAux_append l1 l2 seen
    · simp only [List.cons_append, dedupByIdAux, if_neg h, List.append_eq]
      rw [dedupByIdAux_append l1 l2 (seen ++ [r.id])]
      simp [List.append_assoc]

/-- The variant-by-variant dedup fold equals the recursive dedup of the
concatenation of the variant result lists in variant order. -/
theorem foldl_variant_dedup : ∀ (Ls : List (List SearchResult))
    (acc : List SearchResult) (seen : List String),
    Ls.foldl (fun st results => results.foldl dedupStep st) (acc, seen) =
      (acc ++ dedupByIdAux seen Ls.flatten,
        seen ++ (dedupByIdAux seen Ls.flatten).map (fun r => r.id))
  | [], acc, seen => by simp [dedupByIdAux]
  | l :: Ls, acc, seen => by
    simp only [List.foldl_cons, List.flatten_cons]
    rw [foldl_dedupStep l acc seen,
      foldl_variant_dedup Ls (acc ++ dedupByIdAux seen l)
        (seen ++ (dedupByIdAux seen l).map (fun r => r.id)),
      dedupByIdAux_append l Ls.flatten seen]
    simp [List.append_assoc]

/-- The merge of main.py lines 62-79 is the recursive first-seen-wins
dedup of the concatenated variant results. -/
theorem mergeVariantResults_eq (Ls : List (List SearchResult)) :
    mergeVariantResults Ls = dedupByIdAux [] Ls.flatten := by
  unfold mergeVariantResults
  rw [foldl_variant_dedup Ls [] []]
  simp

/-- Dedup does not change the first record found for any id not yet
seen. -/
theorem find?_dedupByIdAux (i : String) : ∀ (l : List SearchResult)
    (seen : List String), i ∉ seen →
    (dedupByIdAux seen l).find? (fun r => r.id == i) =
      l.find? (fun r => r.id == i)
  | [], _, _ => rfl
  | r :: l, seen, h => by
    by_cases hr : r.id ∈ seen
    · have hri : ¬(r.id == i) = true := by
        intro he
        exact h (beq_iff_eq.mp he ▸ hr)
      simp only [dedupByIdAux, if_pos hr]
      rw [find?_dedupByIdAux i l seen h]
      exact (List.find?_cons_of_neg l hri).symm
    · simp only [dedupByIdAux, if_neg hr]
      by_cases hri : r.id = i
      · rw [List.find?_cons_of_pos _ (by simp [hri]),
          List.find?_cons_of_pos _ (by simp [hri])]
      · have h2 : i ∉ seen ++ [r.id] := by
          simp only [List.mem_append, List.mem_singleton]
          rintro (hc | hc)
          · exact h hc
          · exact hri hc.symm
        rw [List.find?_cons_of_neg _ (by simp [hri]),
          List.find?_cons_of_neg _ (by simp [hri]),
          find?_dedupByIdAux i l (seen ++ [r.id]) h2]

/-- Every record kept by the dedup has an id that was not in the seen
set it started from. -/
theorem mem_dedupByIdAux_not_seen : ∀ (l : List SearchResult)
    (seen : List String) (r : SearchResult),
    r ∈ dedupByIdAux seen l → r.id ∉ seen
  | [], _, r, h => absurd h (List.not_mem_nil r)
  | x :: l, seen, r, h => by
    by_cases hx : x.id ∈ seen
    · simp only [dedupByIdAux, if_pos hx] at h
      exact mem_dedupByIdAux_not_seen l seen r h
    · simp only [dedupByIdAux, if_neg hx] at h
      rcases List.mem_cons.mp h with rfl | h2
      · exact hx
      · intro hc
        exact mem_dedupByIdAux_not_seen l (seen ++ [x.id]) r h2 (by simp [hc])

/-- Dedup keeps only elements of its input. -/
theorem mem_dedupByIdAux_subset : ∀ (l : List SearchResult)
    (seen : List String) (r : SearchResult),
    r ∈ dedupByIdAux seen l → r ∈ l
  | [], _, r, h => absurd h (List.not_mem_nil r)
  | x :: l, seen, r, h => by
    by_cases hx : x.id ∈ seen
    · simp only [dedupByIdAux, if_pos hx] at h
      exact List.mem_cons_of_mem _ (mem_dedupByIdAux_subset l seen r h)
    · simp only [dedupByIdAux, if_neg hx] at h
      rcases List.mem_cons.mp h with rfl | h2
      · exact List.mem_cons_self _ _
      · exact List.mem_cons_of_mem _ (mem_dedupByIdAux_subset l (seen ++ [x.id]) r h2)

/-- Dedup output never repeats an id. -/
theorem pairwise_ne_dedupByIdAux : ∀ (l : List SearchResult) (seen : List String),
    List.Pairwise (fun a b => a.id ≠ b.id) (dedupByIdAux seen l)
  | [], _ => by simp [dedupByIdAux]
  | x :: l, seen => by
    by_cases hx : x.id ∈ seen
    · simpa [dedupByIdAux, hx] using pairwise_ne_dedupByIdAux l seen
    · simp only [dedupByIdAux, if_neg hx]
      refine List.pairwise_cons.mpr ⟨?_, pairwise_ne_dedupByIdAux l (seen ++ [x.id])⟩
      intro b hb he
      exact mem_dedupByIdAux_not_seen l (seen ++ [x.id]) b hb (by simp [← he])

/-- Claim C1: in the merge over variant result lists taken in variant
order, the surfaced record for any id (score and metadata alike) is the
first occurrence of that id in the concatenated traversal, so a
duplicated id keeps the first-seen score, never the maximum; later
duplicates are dropped entirely, and no id is surfaced twice. -/
theorem claim1_merge_first_seen_wins (Ls : List (List SearchResult)) (i : String) :
    (mergeVariantResults Ls).find? (fun r => r.id == i) =
      Ls.flatten.find? (fun r => r.id == i) ∧
    List.Pairwise (fun a b => a.id ≠ b.id) (mergeVariantResults Ls) := by
  rw [mergeVariantResults_eq]
  exact ⟨find?_dedupByIdAux i Ls.flatten [] (List.not_mem_nil i),
    pairwise_ne_dedupByIdAux Ls.flatten []⟩

/-! ## Endpoint log lemmas -/

/-- The fold over the expanded variants appends exactly the per-variant
stats records, one for each variant whose inner try block completed. -/
theorem endpoint_fold_log : ∀ (expanded : List String) (env : PipelineEnv)
    (m : ℚ) (st : List SearchResult × List String × List StatRecord),
    (expanded.foldl (variantStep env m) st).2.2 =
      st.2.2 ++ expanded.filterMap (variantRecord env m)
  | [], _, _, _ => by simp
  | q :: expanded, env, m, st => by
    simp only [List.foldl_cons, List.filterMap_cons]
    cases hs : env.store q with
    | error e =>
      rw [endpoint_fold_log expanded env m _]
      simp [variantStep, db_search_content, hs, variantRecord]
    | ok hits =>
      rw [endpoint_fold_log expanded env m _]
      simp [variantStep, db_search_content, hs, variantRecord, List.append_assoc]

/-- Claim C2, as stated, is false at a two-variant expansion: a single
completed Search call appends two records to the stats log, one per
expanded variant, and the second record carries the variant string, not
the original query. -/
theorem claim2_counterexample :
    ((endpoint_search
        { store := fun _ => .ok [], elapsed := fun _ => 0, stamp := fun _ => "",
          summarize := fun s => s, total_time := 0 }
        ["orig", "alt"] "orig" 10 0 []).2).map (fun r => r.query) = ["orig", "alt"] ∧
    ((endpoint_search
        { store := fun _ => .ok [], elapsed := fun _ => 0, stamp := fun _ => "",
          summarize := fun s => s, total_time := 0 }
        ["orig", "alt"] "orig" 10 0 []).2).length ≠ 1 := by
  constructor <;>
    simp [endpoint_search, variantStep, db_search_content, processHits]

/-- Claim C2, amended: when every variant of a Search completes, the
pipeline appends one stats record per expanded variant, in variant
order; each record carries that variant string as its query, the
pre-merge per-variant result count, and the per-variant elapsed time,
not one record for the original query with the final merged count and
whole-pipeline time. -/
theorem claim2_per_variant_records (env : PipelineEnv)
    (hitsFn : String → List Hit) (expanded : List String) (rq : String)
    (mr : ℕ) (m : ℚ) (log : List StatRecord)
    (hok : ∀ q, env.store q = .ok (hitsFn q)) :
    (endpoint_search env expanded rq mr m log).2 =
      log ++ expanded.map (fun q =>
        { query := q, results_count := (processHits (hitsFn q) m).length,
          search_time := env.elapsed q, timestamp := env.stamp q }) := by
  simp only [endpoint_search]
  rw [endpoint_fold_log]
  congr 1
  induction expanded with
  | nil => rfl
  | cons q t ih => simp [variantRecord, hok q, ih]

/-- Witness for claim2_per_variant_records: two all-ok variants append
their two per-variant records. -/
theorem claim2_per_variant_records_witness :
    (endpoint_search
        { store := fun _ => .ok [], elapsed := fun _ => 1, stamp := fun _ => "t",
          summarize := fun s => s, total_time := 0 }
        ["a", "b"] "a" 10 0 []).2 =
      [] ++ ["a", "b"].map (fun q =>
        { query := q, results_count := (processHits [] (0 : ℚ)).length,
          search_time := 1, timestamp := "t" }) :=
  claim2_per_variant_records
    { store := fun _ => .ok [], elapsed := fun _ => 1, stamp := fun _ => "t",
      summarize := fun s => s, total_time := 0 }
    (fun _ => []) ["a", "b"] "a" 10 0 [] (fun _ => rfl)

/-- Claim C4, as stated, is false: an unexpected error inside the
second variant of a two-variant Search (the vector query raising) does
not make Search return an empty list; the first variant still yields a
result and the overall result list is non-empty (neither is the error
re-raised here: the inner except of database.py lines 218-220 absorbed
it per variant). -/
theorem claim4_counterexample :
    (endpoint_search
        { store := fun q =>
            if q = "good" then
              .ok [Hit.mk "A" "doc" "T" "Cat" "t1" "Beg" 3 "Au" "2024" 0]
            else .error "boom",
          elapsed := fun _ => 0, stamp := fun _ => "",
          summarize := fun s => s, total_time := 0 }
        ["good", "bad"] "good" 10 0 []).1.results ≠ [] ∧
    ({ store := fun q =>
          if q = "good" then
            .ok [Hit.mk "A" "doc" "T" "Cat" "t1" "Beg" 3 "Au" "2024" 0]
          else .error "boom",
       elapsed := fun _ => 0, stamp := fun _ => "",
       summarize := fun s => s, total_time := 0 } : PipelineEnv).store "bad" =
      .error "boom" := by
  constructor
  · simp only [endpoint_search, List.foldl_cons, List.foldl_nil, variantStep,
      db_search_content, enhance_search_results]
    norm_num [processHits, dedupStep, sortDescBy, insertDescBy]
  · simp

/-- Claim C4, amended: an unexpected error inside one variant of the
per-variant embed and vector query is absorbed by the inner except of
ContentDatabase.search_content, which returns an empty list for that
variant only, and Search carries on with the other variants (so the
overall result can be non-empty); only when the inner search of every
variant raises is the returned result list empty. -/
theorem claim4_inner_errors_absorbed :
    (∀ (e : PyErr) (q : String) (m t : ℚ) (ts : String) (log : List StatRecord),
      db_search_content (.error e) q m t ts log = ([], log)) ∧
    (∀ (env : PipelineEnv) (expanded : List String) (rq : String) (mr : ℕ)
        (m : ℚ) (log : List StatRecord),
      (∀ q ∈ expanded, ∃ e, env.store q = .error e) →
      (endpoint_search env expanded rq mr m log).1.results = []) := by
  constructor
  · intro e q m t ts log
    rfl
  · intro env expanded rq mr m log hall
    have hnil : ∀ (t : List String) (seen : List String) (lg : List StatRecord),
        (∀ q ∈ t, ∃ e, env.store q = .error e) →
        (t.foldl (variantStep env m) ([], seen, lg)).1 = [] := by
      intro t
      induction t with
      | nil => intro seen lg _; rfl
      | cons q t2 ih =>
        intro seen lg h
        obtain ⟨e, he⟩ := h q (List.mem_cons_self q t2)
        simp only [List.foldl_cons, variantStep, db_search_content, he,
          List.foldl_nil]
        exact ih seen lg (fun x hx => h x (List.mem_cons_of_mem _ hx))
    simp only [endpoint_search, enhance_search_results]
    rw [hnil expanded [] log hall]
    simp [sortDescBy]

/-- Witness for claim4_inner_errors_absorbed: a raising inner search
returns the empty list without touching the log, and a Search whose
only variant raises returns no results. -/
theorem claim4_inner_errors_absorbed_witness :
    db_search_content (.error "x") "q" 0 0 "" [] = ([], []) ∧
    (endpoint_search
        { store := fun _ => .error "x", elapsed := fun _ => 0, stamp := fun _ => "",
          summarize := fun s => s, total_time := 0 }
        ["a"] "a" 10 0 []).1.results = [] :=
  ⟨claim4_inner_errors_absorbed.1 "x" "q" 0 0 "" [],
   claim4_inner_errors_absorbed.2
    { store := fun _ => .error "x", elapsed := fun _ => 0, stamp := fun _ => "",
      summarize := fun s => s, total_time := 0 }
    ["a"] "a" 10 0 [] (fun _ _ => ⟨"x", rfl⟩)⟩

/-! ## Threshold filter lemmas -/

/-- The result-processing loop is the filter of the hits at the
unrounded threshold followed by the per-hit conversion. -/
theorem processHits_eq (hits : List Hit) (m : ℚ) :
    processHits hits m =
      (hits.filter (fun h => decide (m ≤ 1 - h.distance))).map toSearchResult := by
  suffices h : ∀ acc : List SearchResult,
      hits.foldl
        (fun acc h =>
          if m ≤ 1 - h.distance then acc ++ [toSearchResult h] else acc) acc =
        acc ++ (hits.filter (fun h => decide (m ≤ 1 - h.distance))).map toSearchResult by
    simpa [processHits] using h []
  induction hits with
  | nil => simp
  | cons x t ih =>
    intro acc
    by_cases hx : m ≤ 1 - x.distance <;>
      simp [hx, ih, List.filter_cons, List.append_assoc]

/-- Every processed result comes from a hit that passed the unrounded
threshold check. -/
theorem mem_processHits (hits : List Hit) (m : ℚ) (r : SearchResult)
    (hr : r ∈ processHits hits m) :
    ∃ h ∈ hits, m ≤ 1 - h.distance ∧ r = toSearchResult h := by
  rw [processHits_eq] at hr
  rcases List.mem_map.mp hr with ⟨h, hh, rfl⟩
  rcases List.mem_filter.mp hh with ⟨hmem, hcond⟩
  exact ⟨h, hmem, of_decide_eq_true hcond, rfl⟩

/-- Every element accumulated by the variant loop is either inherited
from the initial accumulator or produced by the inner search of one of
the variants. -/
theorem mem_endpoint_fold : ∀ (expanded : List String) (env : PipelineEnv)
    (m : ℚ) (st : List SearchResult × List String × List StatRecord)
    (r : SearchResult),
    r ∈ (expanded.foldl (variantStep env m) st).1 →
    r ∈ st.1 ∨ ∃ q ∈ expanded, ∃ hits,
      env.store q = .ok hits ∧ r ∈ processHits hits m
  | [], _, _, _, _, h => .inl h
  | q :: t, env, m, st, r, h => by
    simp only [List.foldl_cons] at h
    rcases mem_endpoint_fold t env m (variantStep env m st q) r h with
      h1 | ⟨q2, hq2, hits, hs, hr⟩
    · cases hs : env.store q with
      | error e =>
        simp only [variantStep, db_search_content, hs, List.foldl_nil] at h1
        exact .inl h1
      | ok hits2 =>
        simp only [variantStep, db_search_content, hs] at h1
        rw [foldl_dedupStep] at h1
        rcases List.mem_append.mp h1 with h2 | h2
        · exact .inl h2
        · exact .inr ⟨q, List.mem_cons_self q t, hits2, hs,
            mem_dedupByIdAux_subset _ _ _ h2⟩
    · exact .inr ⟨q2, List.mem_cons_of_mem _ hq2, hits, hs, hr⟩

/-- Claim C6: for every threshold in [0, 1], every surfaced result of
the /search endpoint stems from a hit whose unrounded score
1 - distance is at least the threshold (the stored similarity_score
field is that score rounded to 4 places); no hit below the threshold
ever reaches the output. -/
theorem claim6_min_similarity (env : PipelineEnv) (expanded : List String)
    (rq : String) (mr : ℕ) (m : ℚ) (log : List StatRecord) (r : SearchResult)
    (h0 : 0 ≤ m) (h1 : m ≤ 1)
    (hr : r ∈ (endpoint_search env expanded rq mr m log).1.results) :
    ∃ q ∈ expanded, ∃ hits, env.store q = .ok hits ∧
      ∃ h ∈ hits, m ≤ 1 - h.distance ∧
        r.similarity_score = round4 (1 - h.distance) := by
  simp only [endpoint_search, enhance_search_results] at hr
  rcases List.mem_map.mp hr with ⟨r0, hr0, rfl⟩
  have hr1 := List.mem_of_mem_take hr0
  have hr2 := (mem_sortDescBy (fun r : SearchResult => r.similarity_score) r0 _).mp hr1
  rcases mem_endpoint_fold expanded env m ([], [], log) r0 hr2 with
    habs | ⟨q, hq, hits, hs, hmem⟩
  · exact absurd habs (List.not_mem_nil r0)
  · rcases mem_processHits hits m r0 hmem with ⟨h, hh, hsc, rfl⟩
    exact ⟨q, hq, hits, hs, h, hh, hsc, by simp [enhanceOne, toSearchResult]⟩

/-- Witness for claim6_min_similarity at threshold one half: the single
surfaced result of a one-variant search with one hit at distance 0
satisfies the conclusion. -/
theorem claim6_min_similarity_witness :
    ∃ q ∈ ["q"], ∃ hits,
      ({ store := fun _ => .ok [Hit.mk "A" "doc" "T" "Cat" "t1" "Beg" 3 "Au" "2024" 0],
         elapsed := fun _ => 0, stamp := fun _ => "",
         summarize := fun s => s, total_time := 0 } : PipelineEnv).store q = .ok hits ∧
      ∃ h ∈ hits, (1 : ℚ)/2 ≤ 1 - h.distance ∧
        (enhanceOne (fun s => s)
          (toSearchResult
            (Hit.mk "A" "doc" "T" "Cat" "t1" "Beg" 3 "Au" "2024" 0))).similarity_score =
          round4 (1 - h.distance) :=
  claim6_min_similarity
    { store := fun _ => .ok [Hit.mk "A" "doc" "T" "Cat" "t1" "Beg" 3 "Au" "2024" 0],
      elapsed := fun _ => 0, stamp := fun _ => "",
      summarize := fun s => s, total_time := 0 }
    ["q"] "orig" 10 (1/2) []
    (enhanceOne (fun s => s)
      (toSearchResult (Hit.mk "A" "doc" "T" "Cat" "t1" "Beg" 3 "Au" "2024" 0)))
    (by norm_num) (by norm_num)
    (by
      have hres : (endpoint_search
          { store := fun _ => .ok [Hit.mk "A" "doc" "T" "Cat" "t1" "Beg" 3 "Au" "2024" 0],
            elapsed := fun _ => 0, stamp := fun _ => "",
            summarize := fun s => s, total_time := 0 }
          ["q"] "orig" 10 (1/2) []).1.results =
          [enhanceOne (fun s => s)
            (toSearchResult (Hit.mk "A" "doc" "T" "Cat" "t1" "Beg" 3 "Au" "2024" 0))] := by
        simp only [endpoint_search, List.foldl_cons, List.foldl_nil, variantStep,
          db_search_content, enhance_search_results]
        norm_num [processHits, dedupStep, sortDescBy, insertDescBy]
      rw [hres]
      exact List.mem_singleton.mpr rfl)

end ContentRecommender
